import Mathlib

/-!
Verification of porterminal's session, buffering, rate-limiting and PTY layers.

Shallow embedding of the Python sources under `src/porterminal/`:
bytes are `List Nat`, dictionaries are association lists on `String`,
wall-clock instants are explicit parameters, and the float arithmetic of
the token bucket is modelled over `ℚ`.
-/

namespace Porterminal

/-- Byte strings (`bytes` in Python) as lists of byte values. -/
abbrev Bytes := List Nat

/-- `OUTPUT_BUFFER_MAX_BYTES = 1_000_000` from `session.py`. -/
def OUTPUT_BUFFER_MAX_BYTES : Nat := 1000000

/-- `MAX_SESSIONS_PER_USER = 10` from `session.py`. -/
def MAX_SESSIONS_PER_USER : Nat := 10

/-- `MAX_TOTAL_SESSIONS = 100` from `session.py`. -/
def MAX_TOTAL_SESSIONS : Nat := 100

/-- The ED2 "erase entire display" control sequence `b"\x1b[2J"`. -/
def ED2 : Bytes := [27, 91, 50, 74]

/-- Python's `b"\x1b[2J" in data`: does `ED2` occur as a contiguous
subsequence of `data`? -/
def hasED2 : Bytes → Bool
  | [] => false
  | b :: rest => List.isPrefixOf ED2 (b :: rest) || hasED2 rest

/-- The slice of a `SecurePTYManager` the session registry observes:
`is_alive()` reads `alive`; `close()` clears it. -/
structure PTYManager where
  alive : Bool
deriving Repr, DecidableEq

/-- `TerminalSession` from `session.py`.  The websocket handle is modelled
by an opaque numeric id; timestamps are abstract instants (`Nat`). -/
structure TerminalSession where
  session_id : String
  user_id : String
  pty_manager : PTYManager
  shell_id : String
  created_at : Nat
  last_activity : Nat
  output_buffer : List Bytes
  output_buffer_size : Nat
  websocket : Option Nat
  is_connected : Bool
deriving Repr, DecidableEq

/-- Total byte count of a chunk list. -/
def totalLen (l : List Bytes) : Nat := (l.map List.length).sum

/-- The trimming `while` loop of `add_to_buffer`: pop chunks from the left
while the running size exceeds the cap and the deque is non-empty. -/
def trimBuffer : List Bytes → Nat → List Bytes × Nat
  | [], size => ([], size)
  | c :: rest, size =>
    if OUTPUT_BUFFER_MAX_BYTES < size then trimBuffer rest (size - c.length)
    else (c :: rest, size)

namespace TerminalSession

/-- `TerminalSession.add_to_buffer` from `session.py`: clear on ED2,
append the chunk, then trim oldest-first while over the cap. -/
def add_to_buffer (s : TerminalSession) (data : Bytes) : TerminalSession :=
  let s := if hasED2 data then
    { s with output_buffer := [], output_buffer_size := 0 } else s
  let buf := s.output_buffer ++ [data]
  let size := s.output_buffer_size + data.length
  let t := trimBuffer buf size
  { s with output_buffer := t.1, output_buffer_size := t.2 }

/-- `TerminalSession.get_buffered_output`: join all buffered chunks. -/
def get_buffered_output (s : TerminalSession) : Bytes := s.output_buffer.flatten

/-- `TerminalSession.clear_buffer`. -/
def clear_buffer (s : TerminalSession) : TerminalSession :=
  { s with output_buffer := [], output_buffer_size := 0 }

/-- `TerminalSession.touch`: refresh the activity timestamp. -/
def touch (s : TerminalSession) (now : Nat) : TerminalSession :=
  { s with last_activity := now }

end TerminalSession

/-- A freshly created session (the `TerminalSession(...)` constructor call
in `create_session`): empty replay buffer, no socket bound. -/
def mkSession (sid uid shell : String) (pty : PTYManager) (now : Nat) :
    TerminalSession :=
  { session_id := sid, user_id := uid, pty_manager := pty, shell_id := shell,
    created_at := now, last_activity := now, output_buffer := [],
    output_buffer_size := 0, websocket := none, is_connected := false }

/-- Run a sequence of `add_to_buffer` calls in order. -/
def applyAppends (s : TerminalSession) (cs : List Bytes) : TerminalSession :=
  cs.foldl TerminalSession.add_to_buffer s

/-- Modelled from the spec's words "the most recent chunks whose total size
fits under the cap": the longest suffix of the chunk list whose total byte
count is at most `OUTPUT_BUFFER_MAX_BYTES`. -/
def fittingSuffix : List Bytes → List Bytes
  | [] => []
  | c :: rest =>
    if OUTPUT_BUFFER_MAX_BYTES < totalLen (c :: rest) then fittingSuffix rest
    else c :: rest

/-- The size counter agrees with the actual buffered byte count. -/
def SizeConsistent (s : TerminalSession) : Prop :=
  s.output_buffer_size = totalLen s.output_buffer

lemma totalLen_nil : totalLen [] = 0 := rfl

lemma totalLen_cons (c : Bytes) (l : List Bytes) :
    totalLen (c :: l) = c.length + totalLen l := by
  simp [totalLen]

lemma totalLen_append (l₁ l₂ : List Bytes) :
    totalLen (l₁ ++ l₂) = totalLen l₁ + totalLen l₂ := by
  simp [totalLen]

/-- On a size-consistent state, the trim loop computes exactly the longest
suffix fitting under the cap (with its true size). -/
lemma trimBuffer_eq_fittingSuffix (b : List Bytes) (s : Nat)
    (h : s = totalLen b) :
    trimBuffer b s = (fittingSuffix b, totalLen (fittingSuffix b)) := by
  induction b generalizing s with
  | nil => simp [trimBuffer, fittingSuffix, h, totalLen_nil]
  | cons c rest ih =>
    subst h
    by_cases hlt : OUTPUT_BUFFER_MAX_BYTES < totalLen (c :: rest)
    · rw [trimBuffer, fittingSuffix, if_pos hlt, if_pos hlt]
      rw [totalLen_cons, Nat.add_comm, Nat.add_sub_cancel]
      exact ih _ rfl
    · rw [trimBuffer, fittingSuffix, if_neg hlt, if_neg hlt]

/-- The fitting suffix indeed fits under the cap. -/
lemma fittingSuffix_le (l : List Bytes) :
    totalLen (fittingSuffix l) ≤ OUTPUT_BUFFER_MAX_BYTES := by
  induction l with
  | nil => simp [fittingSuffix, totalLen_nil, OUTPUT_BUFFER_MAX_BYTES]
  | cons c rest ih =>
    by_cases hlt : OUTPUT_BUFFER_MAX_BYTES < totalLen (c :: rest)
    · rw [fittingSuffix, if_pos hlt]; exact ih
    · rw [fittingSuffix, if_neg hlt]; exact Nat.le_of_not_lt hlt

/-- The fitting suffix is a suffix. -/
lemma fittingSuffix_suffix (l : List Bytes) : fittingSuffix l <:+ l := by
  induction l with
  | nil => simp [fittingSuffix]
  | cons c rest ih =>
    by_cases hlt : OUTPUT_BUFFER_MAX_BYTES < totalLen (c :: rest)
    · rw [fittingSuffix, if_pos hlt]
      exact ih.trans (List.suffix_cons c rest)
    · rw [fittingSuffix, if_neg hlt]

/-- Maximality: every suffix fitting under the cap is a suffix of the
fitting suffix. -/
lemma fittingSuffix_maximal (l t : List Bytes) (ht : t <:+ l)
    (hle : totalLen t ≤ OUTPUT_BUFFER_MAX_BYTES) : t <:+ fittingSuffix l := by
  induction l with
  | nil => simpa [fittingSuffix] using ht
  | cons c rest ih =>
    by_cases hlt : OUTPUT_BUFFER_MAX_BYTES < totalLen (c :: rest)
    · rw [fittingSuffix, if_pos hlt]
      rcases List.suffix_cons_iff.mp ht with heq | hsuf
      · exact absurd (heq ▸ hle) (Nat.not_le_of_lt hlt)
      · exact ih hsuf
    · rw [fittingSuffix, if_neg hlt]; exact ht

/-- Re-trimming an already trimmed list after appending one chunk gives the
same result as trimming the whole appended list. -/
lemma fittingSuffix_append_one (l : List Bytes) (c : Bytes) :
    fittingSuffix (fittingSuffix l ++ [c]) = fittingSuffix (l ++ [c]) := by
  induction l with
  | nil => simp [fittingSuffix]
  | cons d rest ih =>
    by_cases hlt : OUTPUT_BUFFER_MAX_BYTES < totalLen (d :: rest)
    · rw [fittingSuffix, if_pos hlt, ih]
      have hlt' : OUTPUT_BUFFER_MAX_BYTES < totalLen ((d :: rest) ++ [c]) := by
        rw [totalLen_append]
        exact Nat.lt_of_lt_of_le hlt (Nat.le_add_right _ _)
      rw [List.cons_append, fittingSuffix, if_pos (by simpa using hlt')]
    · rw [fittingSuffix, if_neg hlt]

/-- One `add_to_buffer` call keeps the size counter consistent and keeps the
running size at or below the cap. -/
lemma add_to_buffer_consistent (s : TerminalSession) (data : Bytes)
    (hc : SizeConsistent s) :
    SizeConsistent (s.add_to_buffer data) ∧
    (s.add_to_buffer data).output_buffer_size ≤ OUTPUT_BUFFER_MAX_BYTES := by
  unfold TerminalSession.add_to_buffer
  by_cases hed : hasED2 data
  · rw [if_pos hed]
    simp only
    rw [trimBuffer_eq_fittingSuffix ([] ++ [data]) (0 + data.length)
      (by simp [totalLen_append, totalLen_cons, totalLen_nil])]
    exact ⟨rfl, fittingSuffix_le _⟩
  · rw [if_neg hed]
    simp only
    rw [trimBuffer_eq_fittingSuffix (s.output_buffer ++ [data])
      (s.output_buffer_size + data.length)
      (by rw [totalLen_append, totalLen_cons, totalLen_nil, hc]; ring)]
    exact ⟨rfl, fittingSuffix_le _⟩

/-- On a consistent state, appending a chunk without the clear sequence
re-trims the extended chunk list. -/
lemma add_to_buffer_no_ed2 (s : TerminalSession) (data : Bytes)
    (hc : SizeConsistent s) (hed : hasED2 data = false) :
    (s.add_to_buffer data).output_buffer = fittingSuffix (s.output_buffer ++ [data]) := by
  unfold TerminalSession.add_to_buffer
  rw [if_neg (by simp [hed])]
  simp only
  rw [trimBuffer_eq_fittingSuffix (s.output_buffer ++ [data])
    (s.output_buffer_size + data.length)
    (by rw [totalLen_append, totalLen_cons, totalLen_nil, hc]; ring)]

/-- Folding appends preserves consistency and the cap bound. -/
lemma applyAppends_consistent (s : TerminalSession) (cs : List Bytes)
    (hc : SizeConsistent s)
    (hle : s.output_buffer_size ≤ OUTPUT_BUFFER_MAX_BYTES) :
    SizeConsistent (applyAppends s cs) ∧
    (applyAppends s cs).output_buffer_size ≤ OUTPUT_BUFFER_MAX_BYTES := by
  induction cs generalizing s with
  | nil => exact ⟨hc, hle⟩
  | cons c rest ih =>
    have h := add_to_buffer_consistent s c hc
    exact ih (s.add_to_buffer c) h.1 h.2

/-- `applyAppends` peels appends from the right. -/
lemma applyAppends_concat (s : TerminalSession) (cs : List Bytes) (c : Bytes) :
    applyAppends s (cs ++ [c]) = (applyAppends s cs).add_to_buffer c := by
  simp [applyAppends]

/-- From an empty buffer, a run of appends of clear-free chunks leaves
exactly the longest fitting suffix of the appended chunks buffered. -/
lemma applyAppends_buffer_eq (s : TerminalSession) (cs : List Bytes)
    (hb : s.output_buffer = []) (hc : SizeConsistent s)
    (hed : ∀ c ∈ cs, hasED2 c = false) :
    (applyAppends s cs).output_buffer = fittingSuffix cs := by
  induction cs using List.reverseRecOn with
  | nil => simpa [applyAppends, fittingSuffix] using hb
  | append_singleton rest c ih =>
    have hrest : ∀ d ∈ rest, hasED2 d = false := fun d hd =>
      hed d (List.mem_append_left _ hd)
    have hcons := applyAppends_consistent s rest hc (by
      rw [hc, hb, totalLen_nil]; exact Nat.zero_le _)
    rw [applyAppends_concat,
      add_to_buffer_no_ed2 _ _ hcons.1
        (hed c (List.mem_append_right _ (List.mem_singleton_self c))),
      ih hrest, fittingSuffix_append_one]

/-- Association-list model of a Python `dict` keyed by strings: lookup. -/
def assocGet {α : Type} : List (String × α) → String → Option α
  | [], _ => none
  | (k, v) :: rest, key => if k = key then some v else assocGet rest key

/-- `dict[key] = v`: replace the entry if present, else add it. -/
def assocSet {α : Type} : List (String × α) → String → α → List (String × α)
  | [], key, v => [(key, v)]
  | (k, w) :: rest, key, v =>
    if k = key then (k, v) :: rest else (k, w) :: assocSet rest key v

/-- `dict.pop(key, None)`: drop the entry for `key`. -/
def assocRemove {α : Type} (m : List (String × α)) (key : String) :
    List (String × α) :=
  m.filter (fun p => p.1 != key)

lemma assocGet_assocSet_self {α : Type} (m : List (String × α)) (k : String)
    (v : α) : assocGet (assocSet m k v) k = some v := by
  induction m with
  | nil => simp [assocSet, assocGet]
  | cons p rest ih =>
    by_cases h : p.1 = k
    · simp [assocSet, assocGet, h]
    · simp [assocSet, assocGet, h, ih]

lemma assocGet_assocRemove_self {α : Type} (m : List (String × α))
    (k : String) : assocGet (assocRemove m k) k = none := by
  induction m with
  | nil => rfl
  | cons p rest ih =>
    by_cases h : p.1 = k
    · have hb : (p.1 != k) = false := by simp [h]
      simpa [assocRemove, List.filter_cons, hb] using ih
    · have hb : (p.1 != k) = true := by simp [h]
      simpa [assocRemove, List.filter_cons, hb, assocGet, h] using ih

/-- `SessionRegistry` state from `session.py`: the primary session map and
the derived per-user index. -/
structure SessionRegistry where
  sessions : List (String × TerminalSession)
  user_sessions : List (String × List String)
deriving Repr, DecidableEq

/-- The two `ValueError` capacity failures of `create_session` (the spec's
CapacityError), distinguished by which limit tripped. -/
inductive CapacityError
  | userLimit
  | serverLimit
deriving Repr, DecidableEq

/-- A close performed on a websocket: the socket's id together with the
close code passed (`some 4000` for the supersede close in
`reconnect_session`, `none` for the plain `close()` in `destroy_session`). -/
abbrev CloseEvent := Nat × Option Nat

/-- `SessionRegistry.create_session`.  `ptyF` is the PTY manager the
injected factory would return, `newId` the fresh uuid4 value, `now` the
current instant; the final `Nat` counts how often the PTY factory was
invoked. -/
def create_session (reg : SessionRegistry) (ptyF : PTYManager)
    (user_id : String) (shell_id : Option String) (newId : String)
    (now : Nat) :
    Except CapacityError TerminalSession × SessionRegistry × Nat :=
  let user_sessions := (assocGet reg.user_sessions user_id).getD []
  if MAX_SESSIONS_PER_USER ≤ user_sessions.length then
    (.error .userLimit, reg, 0)
  else if MAX_TOTAL_SESSIONS ≤ reg.sessions.length then
    (.error .serverLimit, reg, 0)
  else
    let session := mkSession newId user_id (shell_id.getD "default") ptyF now
    let sessions := assocSet reg.sessions newId session
    let us := if newId ∈ user_sessions then user_sessions
      else user_sessions ++ [newId]
    (.ok session, ⟨sessions, assocSet reg.user_sessions user_id us⟩, 1)

/-- `SessionRegistry.destroy_session`: pop from the session map, discard
from the user's id set (pruning an emptied entry), close any bound socket
with the default close, close the PTY. -/
def destroy_session (reg : SessionRegistry) (session_id : String) :
    SessionRegistry × List CloseEvent :=
  match assocGet reg.sessions session_id with
  | none => (reg, [])
  | some s =>
    let sessions := assocRemove reg.sessions session_id
    let us := (assocGet reg.user_sessions s.user_id).getD []
    let us' := us.filter (fun sid => sid != session_id)
    let user_sessions :=
      if us'.isEmpty then assocRemove reg.user_sessions s.user_id
      else assocSet reg.user_sessions s.user_id us'
    let evs : List CloseEvent := match s.websocket with
      | some w => [(w, none)]
      | none => []
    (⟨sessions, user_sessions⟩, evs)

/-- `SessionRegistry.reconnect_session`: not-found for unknown ids,
not-found on ownership mismatch, destroy-and-not-found for a dead PTY,
otherwise supersede any still-connected socket (close code 4000), bind the
new one, mark connected and touch. -/
def reconnect_session (reg : SessionRegistry) (session_id user_id : String)
    (websocket : Nat) (now : Nat) :
    Option TerminalSession × SessionRegistry × List CloseEvent :=
  match assocGet reg.sessions session_id with
  | none => (none, reg, [])
  | some s =>
    if s.user_id ≠ user_id then (none, reg, [])
    else if s.pty_manager.alive = false then
      let d := destroy_session reg session_id
      (none, d.1, d.2)
    else
      let evs : List CloseEvent := match s.websocket with
        | some w => if s.is_connected then [(w, some 4000)] else []
        | none => []
      let s' := { s with websocket := some websocket, is_connected := true,
                         last_activity := now }
      (some s', ⟨assocSet reg.sessions session_id s', reg.user_sessions⟩, evs)

/-- The session update a successful reconnect performs: bind the new
socket, mark connected, refresh the activity timestamp. -/
def rebind (s : TerminalSession) (ws : Nat) (now : Nat) : TerminalSession :=
  { s with websocket := some ws, is_connected := true, last_activity := now }

/-- `DEFAULT_RATE = 100` tokens per second, from `rate_limiter.py`. -/
def DEFAULT_RATE : ℚ := 100

/-- `DEFAULT_BURST = 500`, from `rate_limiter.py`. -/
def DEFAULT_BURST : ℚ := 500

/-- Token-bucket state (`RateLimiter.__init__`); float arithmetic is
modelled over `ℚ`, clock readings are explicit arguments. -/
structure RateLimiter where
  rate : ℚ
  burst : ℚ
  tokens : ℚ
  last_update : ℚ
deriving Repr, DecidableEq

/-- A fresh `RateLimiter(rate, burst)` constructed when the loop clock
reads `now`: the bucket starts full. -/
def RateLimiter.init (rate burst now : ℚ) : RateLimiter :=
  { rate := rate, burst := burst, tokens := burst, last_update := now }

/-- `RateLimiter.acquire`: refill proportionally to elapsed time, capped at
`burst`; admit (decrementing) iff at least `tokens` are available. -/
def acquire (rl : RateLimiter) (now : ℚ) (tokens : ℚ) : Bool × RateLimiter :=
  let elapsed := now - rl.last_update
  let t := min rl.burst (rl.tokens + elapsed * rl.rate)
  if tokens ≤ t then
    (true, { rl with tokens := t - tokens, last_update := now })
  else
    (false, { rl with tokens := t, last_update := now })

/-- `DEFAULT_FLUSH_INTERVAL_MS = 8`, from `buffer.py`. -/
def DEFAULT_FLUSH_INTERVAL_MS : Nat := 8

/-- `OutputBuffer` state from `buffer.py`; `flush_task` records a pending
delayed flush together with the sleep delay it was scheduled with. -/
structure OutputBuffer where
  buffer : List Bytes
  flush_interval : ℚ
  flush_task : Option ℚ
  closed : Bool
deriving Repr, DecidableEq

/-- `OutputBuffer.__init__(websocket, flush_interval_ms)`. -/
def OutputBuffer.init (flush_interval_ms : Nat) : OutputBuffer :=
  { buffer := [], flush_interval := (flush_interval_ms : ℚ) / 1000,
    flush_task := none, closed := false }

namespace OutputBuffer

/-- `OutputBuffer.flush`: cancel any pending delayed flush, then send the
queued chunks joined as one frame (if non-empty and not closed).  Returns
the new state together with the frames sent. -/
def flush (ob : OutputBuffer) : OutputBuffer × List Bytes :=
  let ob := { ob with flush_task := none }
  if !ob.buffer.isEmpty && !ob.closed then
    ({ ob with buffer := [] }, [ob.buffer.flatten])
  else (ob, [])

/-- `OutputBuffer.write`: queue the chunk; a chunk of at most 64 bytes
triggers an immediate `flush()`; a larger chunk schedules a delayed flush
(sleeping `flush_interval`) unless one is already scheduled. -/
def write (ob : OutputBuffer) (data : Bytes) : OutputBuffer × List Bytes :=
  if ob.closed then (ob, [])
  else
    let ob := { ob with buffer := ob.buffer ++ [data] }
    if data.length ≤ 64 then flush ob
    else if ob.flush_task.isNone then
      ({ ob with flush_task := some ob.flush_interval }, [])
    else (ob, [])

/-- The body of `OutputBuffer._delayed_flush` once its sleep has elapsed:
send the queued chunks as one frame and clear the task slot. -/
def delayed_flush_fire (ob : OutputBuffer) : OutputBuffer × List Bytes :=
  if !ob.buffer.isEmpty && !ob.closed then
    ({ ob with buffer := [], flush_task := none }, [ob.buffer.flatten])
  else ({ ob with flush_task := none }, [])

end OutputBuffer

/-- `MAX_INPUT_SIZE = 4096`, from `websocket/handler.py`. -/
def MAX_INPUT_SIZE : Nat := 4096

/-- The typed error messages the input paths send to the client. -/
inductive ClientError
  | inputTooLarge
  | rateLimitExceeded
deriving Repr, DecidableEq

/-- `_handle_binary_input` from `websocket/handler.py`: size check, then
rate limiting, then write to the PTY.  Returns the typed errors sent to
the client, the byte strings written to the PTY, and the new limiter
state. -/
def handle_binary_input (rl : RateLimiter) (now : ℚ) (max_input_size : Nat)
    (input_bytes : Bytes) : List ClientError × List Bytes × RateLimiter :=
  if max_input_size < input_bytes.length then
    ([.inputTooLarge], [], rl)
  else
    let a := acquire rl now (input_bytes.length : ℚ)
    if a.1 then ([], [input_bytes], a.2)
    else ([.rateLimitExceeded], [], a.2)

/-- UTF-8 encoding of one Unicode code point. -/
def utf8EncodeChar (c : Nat) : Bytes :=
  if c < 128 then [c]
  else if c < 2048 then [192 + c / 64, 128 + c % 64]
  else if c < 65536 then [224 + c / 4096, 128 + (c / 64) % 64, 128 + c % 64]
  else [240 + c / 262144, 128 + (c / 4096) % 64, 128 + (c / 64) % 64,
        128 + c % 64]

/-- Python's `str.encode("utf-8")` on a string given as code points. -/
def utf8Encode (data : List Nat) : Bytes := (data.map utf8EncodeChar).flatten

/-- `handle_input` (the JSON `{"type":"input"}` handler) from
`websocket/handlers.py`: the size check compares the character count to
the limit; non-empty data is UTF-8 encoded and rate-limited by byte count;
a rate-limited input is dropped with only a log line. -/
def handle_input (rl : RateLimiter) (now : ℚ) (max_input_size : Nat)
    (data : List Nat) : List ClientError × List Bytes × RateLimiter :=
  if max_input_size < data.length then
    ([.inputTooLarge], [], rl)
  else if data.isEmpty then ([], [], rl)
  else
    let input_bytes := utf8Encode data
    let a := acquire rl now (input_bytes.length : ℚ)
    if a.1 then ([], [input_bytes], a.2)
    else ([], [], a.2)

/-- `FakePTYBackend` state from `pty/fake.py`. -/
structure FakePTYBackend where
  input_buffer : Bytes
  output_queue : List Bytes
  alive : Bool
  rows : Nat
  cols : Nat
  spawn_count : Nat
  resize_count : Nat
deriving Repr, DecidableEq

namespace FakePTYBackend

/-- `FakePTYBackend.__init__`. -/
def init : FakePTYBackend :=
  { input_buffer := [], output_queue := [], alive := false,
    rows := 30, cols := 120, spawn_count := 0, resize_count := 0 }

/-- `FakePTYBackend.read(size)`: empty if dead or nothing queued, else pop
the oldest chunk, putting any remainder beyond `size` back at the front. -/
def read (pty : FakePTYBackend) (size : Nat) : Bytes × FakePTYBackend :=
  if !pty.alive then ([], pty)
  else
    match pty.output_queue with
    | [] => ([], pty)
    | data :: rest =>
      if size < data.length then
        (data.take size, { pty with output_queue := data.drop size :: rest })
      else (data, { pty with output_queue := rest })

/-- `FakePTYBackend.inject_output`: append a chunk to the back. -/
def inject_output (pty : FakePTYBackend) (data : Bytes) : FakePTYBackend :=
  { pty with output_queue := pty.output_queue ++ [data] }

/-- Perform `fuel` successive `read(size)` calls and concatenate what they
return. -/
def readAll (pty : FakePTYBackend) (size : Nat) : Nat → Bytes
  | 0 => []
  | fuel + 1 =>
    let r := pty.read size
    r.1 ++ readAll r.2 size fuel

end FakePTYBackend

/-- C1 (amended): for every sequence of appends the running size stays at
most the 1,000,000-byte cap; and for appends of chunks free of the
clear-display sequence, the snapshot equals the concatenation of the
longest suffix of the appended chunks whose total size is at most the cap
(dropping oldest chunks first), that suffix being maximal among fitting
suffixes. -/
theorem replay_buffer_cap_and_fitting_suffix (sid uid shell : String)
    (pty : PTYManager) (now : Nat) (cs : List Bytes) :
    (applyAppends (mkSession sid uid shell pty now) cs).output_buffer_size
        ≤ OUTPUT_BUFFER_MAX_BYTES ∧
    ((∀ c ∈ cs, hasED2 c = false) →
      TerminalSession.get_buffered_output
          (applyAppends (mkSession sid uid shell pty now) cs)
          = (fittingSuffix cs).flatten ∧
      fittingSuffix cs <:+ cs ∧
      totalLen (fittingSuffix cs) ≤ OUTPUT_BUFFER_MAX_BYTES ∧
      (∀ t, t <:+ cs → totalLen t ≤ OUTPUT_BUFFER_MAX_BYTES →
        t <:+ fittingSuffix cs)) := by
  constructor
  · exact (applyAppends_consistent _ cs (by rfl) (Nat.zero_le _)).2
  · intro h
    refine ⟨?_, fittingSuffix_suffix cs, fittingSuffix_le cs,
      fun t ht hle => fittingSuffix_maximal cs t ht hle⟩
    unfold TerminalSession.get_buffered_output
    rw [applyAppends_buffer_eq _ cs rfl (by rfl) h]

/-- C1 witness: a concrete two-chunk run, cap respected and snapshot equal
to the fitting suffix's concatenation. -/
theorem replay_buffer_cap_and_fitting_suffix_witness :
    (applyAppends (mkSession "s" "u" "zsh" ⟨true⟩ 0)
        [[65], [66]]).output_buffer_size ≤ OUTPUT_BUFFER_MAX_BYTES ∧
    TerminalSession.get_buffered_output
        (applyAppends (mkSession "s" "u" "zsh" ⟨true⟩ 0) [[65], [66]])
        = (fittingSuffix [[65], [66]]).flatten :=
  ⟨(replay_buffer_cap_and_fitting_suffix "s" "u" "zsh" ⟨true⟩ 0
      [[65], [66]]).1,
   ((replay_buffer_cap_and_fitting_suffix "s" "u" "zsh" ⟨true⟩ 0
      [[65], [66]]).2 (by decide)).1⟩

/-- C1 counterexample: with a chunk containing the clear-display sequence
`ESC [ 2 J`, the snapshot is NOT the concatenation of the most recent
chunks fitting under the cap — the clear discards an earlier chunk that
would have fit. -/
theorem replay_buffer_literal_counterexample :
    TerminalSession.get_buffered_output
        (applyAppends (mkSession "s" "u" "zsh" ⟨true⟩ 0)
          [[65], [27, 91, 50, 74, 98]]) = [27, 91, 50, 74, 98] ∧
    (fittingSuffix [[65], [27, 91, 50, 74, 98]]).flatten
        = [65, 27, 91, 50, 74, 98] ∧
    TerminalSession.get_buffered_output
        (applyAppends (mkSession "s" "u" "zsh" ⟨true⟩ 0)
          [[65], [27, 91, 50, 74, 98]])
        ≠ (fittingSuffix [[65], [27, 91, 50, 74, 98]]).flatten := by
  refine ⟨by decide, by decide, by decide⟩

/-- C8: appending a chunk containing `ESC [ 2 J` first clears the buffer,
so the result is as if the buffer had been empty; in particular (when the
chunk itself fits under the cap) the snapshot afterwards is exactly that
chunk. -/
theorem clear_sequence_resets_buffer (s : TerminalSession) (data : Bytes)
    (h : hasED2 data = true) :
    s.add_to_buffer data = (s.clear_buffer).add_to_buffer data ∧
    (data.length ≤ OUTPUT_BUFFER_MAX_BYTES →
      TerminalSession.get_buffered_output (s.add_to_buffer data) = data) := by
  constructor
  · simp [TerminalSession.add_to_buffer, TerminalSession.clear_buffer, h]
  · intro hlen
    unfold TerminalSession.add_to_buffer TerminalSession.get_buffered_output
    simp only [h, if_true]
    rw [trimBuffer_eq_fittingSuffix ([] ++ [data]) (0 + data.length)
      (by simp [totalLen_append, totalLen_cons, totalLen_nil])]
    simp only [List.nil_append]
    rw [fittingSuffix, if_neg (by
      simpa [totalLen_cons, totalLen_nil] using Nat.not_lt_of_le hlen)]
    simp

/-- C8 witness: `append("A"); append("\x1b[2Jb")` leaves a snapshot equal
to `"\x1b[2Jb"`. -/
theorem clear_sequence_resets_buffer_witness :
    hasED2 [27, 91, 50, 74, 98] = true ∧
    TerminalSession.get_buffered_output
        (((mkSession "s" "u" "zsh" ⟨true⟩ 0).add_to_buffer
          [65]).add_to_buffer [27, 91, 50, 74, 98]) = [27, 91, 50, 74, 98] :=
  ⟨by decide,
   (clear_sequence_resets_buffer _ [27, 91, 50, 74, 98] (by decide)).2
     (by decide)⟩

/-- C2: `acquire(n)` refills the bucket proportionally to elapsed time,
capped at `burst`, admits (decrementing by `n`) exactly when at least `n`
tokens are available after the refill, rejects otherwise leaving the
refilled balance, never exceeds `burst` afterwards, and returns rather
than blocking; with the defaults (burst 500, rate 100/s), `acquire(500)`
succeeds, an immediate `acquire(1)` fails, and `acquire(100)` one second
later succeeds. -/
theorem rate_limiter_token_bucket (rl : RateLimiter) (now n : ℚ) :
    ((acquire rl now n).1 = true ↔
      n ≤ min rl.burst (rl.tokens + (now - rl.last_update) * rl.rate)) ∧
    ((acquire rl now n).1 = true →
      (acquire rl now n).2.tokens
        = min rl.burst (rl.tokens + (now - rl.last_update) * rl.rate) - n) ∧
    ((acquire rl now n).1 = false →
      (acquire rl now n).2.tokens
        = min rl.burst (rl.tokens + (now - rl.last_update) * rl.rate)) ∧
    (acquire rl now n).2.last_update = now ∧
    (0 ≤ n → (acquire rl now n).2.tokens ≤ rl.burst) ∧
    (let r0 := RateLimiter.init DEFAULT_RATE DEFAULT_BURST 0
     let a1 := acquire r0 0 500
     let a2 := acquire a1.2 0 1
     let a3 := acquire a2.2 1 100
     a1.1 = true ∧ a2.1 = false ∧ a3.1 = true) := by
  by_cases h : n ≤ min rl.burst (rl.tokens + (now - rl.last_update) * rl.rate)
  · refine ⟨by simp [acquire, h], by simp [acquire, h], by simp [acquire, h],
      by simp [acquire, h], fun hn => ?_, by
        norm_num [acquire, RateLimiter.init, DEFAULT_RATE, DEFAULT_BURST,
          min_def]⟩
    simp only [acquire, if_pos h]
    calc min rl.burst (rl.tokens + (now - rl.last_update) * rl.rate) - n
        ≤ min rl.burst (rl.tokens + (now - rl.last_update) * rl.rate) := by
          linarith
      _ ≤ rl.burst := min_le_left _ _
  · refine ⟨by simp [acquire, h], by simp [acquire, h], by simp [acquire, h],
      by simp [acquire, h], fun hn => ?_, by
        norm_num [acquire, RateLimiter.init, DEFAULT_RATE, DEFAULT_BURST,
          min_def]⟩
    simp only [acquire, if_neg h]
    exact min_le_left _ _

/-- C2 witness: the defaults scenario extracted at concrete arguments. -/
theorem rate_limiter_token_bucket_witness :
    (acquire (RateLimiter.init DEFAULT_RATE DEFAULT_BURST 0) 0 500).1
      = true ∧
    (acquire (RateLimiter.init DEFAULT_RATE DEFAULT_BURST 0) 0 500).2.tokens
      = min (RateLimiter.init DEFAULT_RATE DEFAULT_BURST 0).burst
          ((RateLimiter.init DEFAULT_RATE DEFAULT_BURST 0).tokens
            + (0 - (RateLimiter.init DEFAULT_RATE DEFAULT_BURST
                0).last_update)
              * (RateLimiter.init DEFAULT_RATE DEFAULT_BURST 0).rate)
          - 500 :=
  ⟨(rate_limiter_token_bucket (RateLimiter.init DEFAULT_RATE DEFAULT_BURST 0)
      0 500).1.mpr (by
        norm_num [RateLimiter.init, DEFAULT_RATE, DEFAULT_BURST, min_def]),
   (rate_limiter_token_bucket (RateLimiter.init DEFAULT_RATE DEFAULT_BURST 0)
      0 500).2.1 ((rate_limiter_token_bucket
        (RateLimiter.init DEFAULT_RATE DEFAULT_BURST 0) 0 500).1.mpr (by
          norm_num [RateLimiter.init, DEFAULT_RATE, DEFAULT_BURST, min_def]))⟩

/-- C3: `create_session` fails with the user-level capacity error when the
user already holds `MAX_SESSIONS_PER_USER` sessions (before the global
check), fails with the server-level capacity error when the global limit is
hit, in both cases without invoking the PTY factory and leaving the
registry unchanged; otherwise it invokes the factory once and registers the
new session under the fresh id in both the session map and the user
index. -/
theorem create_session_checks_limits_before_spawn (reg : SessionRegistry)
    (ptyF : PTYManager) (user_id : String) (shell_id : Option String)
    (newId : String) (now : Nat) :
    (MAX_SESSIONS_PER_USER
        ≤ ((assocGet reg.user_sessions user_id).getD []).length →
      create_session reg ptyF user_id shell_id newId now
        = (.error .userLimit, reg, 0)) ∧
    (((assocGet reg.user_sessions user_id).getD []).length
        < MAX_SESSIONS_PER_USER →
      MAX_TOTAL_SESSIONS ≤ reg.sessions.length →
      create_session reg ptyF user_id shell_id newId now
        = (.error .serverLimit, reg, 0)) ∧
    (((assocGet reg.user_sessions user_id).getD []).length
        < MAX_SESSIONS_PER_USER →
      reg.sessions.length < MAX_TOTAL_SESSIONS →
      (create_session reg ptyF user_id shell_id newId now).1
        = .ok (mkSession newId user_id (shell_id.getD "default") ptyF now) ∧
      (create_session reg ptyF user_id shell_id newId now).2.2 = 1 ∧
      assocGet
        (create_session reg ptyF user_id shell_id newId now).2.1.sessions
        newId
        = some (mkSession newId user_id (shell_id.getD "default") ptyF now) ∧
      ∃ ids, assocGet
          (create_session reg ptyF user_id shell_id newId now).2.1.user_sessions
          user_id = some ids ∧ newId ∈ ids) := by
  refine ⟨fun h => ?_, fun h1 h2 => ?_, fun h1 h2 => ?_⟩
  · simp [create_session, h]
  · simp [create_session, Nat.not_le_of_lt h1, h2]
  · simp only [create_session, Nat.not_le_of_lt h1, if_false,
      Nat.not_le_of_lt h2]
    refine ⟨trivial, trivial, assocGet_assocSet_self _ _ _, ?_⟩
    refine ⟨_, assocGet_assocSet_self _ _ _, ?_⟩
    by_cases hmem : newId ∈ (assocGet reg.user_sessions user_id).getD []
    · simp [hmem]
    · simp [hmem]

/-- C3 witness: a user at the per-user limit is refused with the user-level
error and no spawn; on an empty registry a session is created, the factory
runs once, and both mappings contain the new session. -/
theorem create_session_checks_limits_before_spawn_witness :
    (create_session
        ⟨[], [("u", ["a", "b", "c", "d", "e", "f", "g", "h", "i", "j"])]⟩
        ⟨true⟩ "u" none "fresh" 0
      = (.error .userLimit,
         ⟨[], [("u", ["a", "b", "c", "d", "e", "f", "g", "h", "i", "j"])]⟩,
         0)) ∧
    ((create_session ⟨[], []⟩ ⟨true⟩ "u" none "fresh" 0).2.2 = 1 ∧
      assocGet (create_session ⟨[], []⟩ ⟨true⟩ "u" none "fresh"
          0).2.1.sessions "fresh"
        = some (mkSession "fresh" "u" "default" ⟨true⟩ 0)) :=
  ⟨(create_session_checks_limits_before_spawn
      ⟨[], [("u", ["a", "b", "c", "d", "e", "f", "g", "h", "i", "j"])]⟩
      ⟨true⟩ "u" none "fresh" 0).1 (by decide),
   ⟨((create_session_checks_limits_before_spawn ⟨[], []⟩ ⟨true⟩ "u" none
        "fresh" 0).2.2 (by decide) (by decide)).2.1,
    ((create_session_checks_limits_before_spawn ⟨[], []⟩ ⟨true⟩ "u" none
        "fresh" 0).2.2 (by decide) (by decide)).2.2.1⟩⟩

/-- C4 (amended): on the binary path an oversize or rate-limited input is
reported to the client as a typed error and not written to the PTY, and an
accepted input is written; on the JSON path an oversize input (measured in
characters, before encoding) is reported as a typed error, a rate-limited
input is silently dropped with no client message, and an accepted input is
written UTF-8 encoded — in every rejection case nothing reaches the PTY
and the handler returns normally. -/
theorem input_rejection_reporting (rl : RateLimiter) (now : ℚ)
    (input_bytes : Bytes) (data : List Nat) :
    (MAX_INPUT_SIZE < input_bytes.length →
      handle_binary_input rl now MAX_INPUT_SIZE input_bytes
        = ([.inputTooLarge], [], rl)) ∧
    (input_bytes.length ≤ MAX_INPUT_SIZE →
      (acquire rl now (input_bytes.length : ℚ)).1 = false →
      handle_binary_input rl now MAX_INPUT_SIZE input_bytes
        = ([.rateLimitExceeded], [],
           (acquire rl now (input_bytes.length : ℚ)).2)) ∧
    (input_bytes.length ≤ MAX_INPUT_SIZE →
      (acquire rl now (input_bytes.length : ℚ)).1 = true →
      handle_binary_input rl now MAX_INPUT_SIZE input_bytes
        = ([], [input_bytes],
           (acquire rl now (input_bytes.length : ℚ)).2)) ∧
    (MAX_INPUT_SIZE < data.length →
      handle_input rl now MAX_INPUT_SIZE data
        = ([.inputTooLarge], [], rl)) ∧
    (data.length ≤ MAX_INPUT_SIZE → data ≠ [] →
      (acquire rl now ((utf8Encode data).length : ℚ)).1 = false →
      handle_input rl now MAX_INPUT_SIZE data
        = ([], [], (acquire rl now ((utf8Encode data).length : ℚ)).2)) ∧
    (data.length ≤ MAX_INPUT_SIZE → data ≠ [] →
      (acquire rl now ((utf8Encode data).length : ℚ)).1 = true →
      handle_input rl now MAX_INPUT_SIZE data
        = ([], [utf8Encode data],
           (acquire rl now ((utf8Encode data).length : ℚ)).2)) := by
  refine ⟨fun h => by simp [handle_binary_input, h],
    fun h hrl => ?_, fun h hrl => ?_,
    fun h => by simp [handle_input, h],
    fun h hne hrl => ?_, fun h hne hrl => ?_⟩
  · simp [handle_binary_input, Nat.not_lt_of_le h, hrl]
  · simp [handle_binary_input, Nat.not_lt_of_le h, hrl]
  · simp [handle_input, Nat.not_lt_of_le h, hne, hrl]
  · simp [handle_input, Nat.not_lt_of_le h, hne, hrl]

/-- C4 witness: a drained bucket rejects a one-byte binary input with the
typed rate-limit error, and an oversize JSON input gets the typed oversize
error. -/
theorem input_rejection_reporting_witness :
    handle_binary_input
        { rate := 100, burst := 500, tokens := 0, last_update := 0 } 0
        MAX_INPUT_SIZE [97]
      = ([.rateLimitExceeded], [],
         (acquire { rate := 100, burst := 500, tokens := 0, last_update := 0 }
           0 ((1 : Nat) : ℚ)).2) ∧
    handle_input { rate := 100, burst := 500, tokens := 0, last_update := 0 }
        0 MAX_INPUT_SIZE (List.replicate 4097 97)
      = ([.inputTooLarge], [],
         { rate := 100, burst := 500, tokens := 0, last_update := 0 }) :=
  ⟨(input_rejection_reporting
      { rate := 100, burst := 500, tokens := 0, last_update := 0 } 0 [97]
      []).2.1 (by decide)
      (by norm_num [acquire, min_def]),
   (input_rejection_reporting
      { rate := 100, burst := 500, tokens := 0, last_update := 0 } 0 []
      (List.replicate 4097 97)).2.2.2.1
      (by rw [List.length_replicate]; norm_num [MAX_INPUT_SIZE])⟩

/-- C4 counterexample: the same rate-limited one-byte input yields a typed
error on the binary path but NO client message at all on the JSON path
(and no PTY write either), so the JSON path does not report rate-limited
input. -/
theorem json_rate_limit_silent_counterexample :
    (handle_input
        { rate := 100, burst := 500, tokens := 0, last_update := 0 } 0
        MAX_INPUT_SIZE [97]).1 = [] ∧
    (handle_input
        { rate := 100, burst := 500, tokens := 0, last_update := 0 } 0
        MAX_INPUT_SIZE [97]).2.1 = [] ∧
    (handle_binary_input
        { rate := 100, burst := 500, tokens := 0, last_update := 0 } 0
        MAX_INPUT_SIZE [97]).1 = [.rateLimitExceeded] := by
  norm_num [handle_input, handle_binary_input, acquire, MAX_INPUT_SIZE,
    utf8Encode, utf8EncodeChar, min_def]

/-- C5 (amended): a chunk of at most 64 bytes triggers an immediate flush
that sends everything queued, the chunk included, joined as one frame (so
it is coalesced with any queued larger chunks and is alone in its frame
only when the queue was empty); a larger chunk is queued and a delayed
flush sleeping one flush interval (8 ms by default) is scheduled unless one
already is; the delayed flush sends the whole queue as one frame; an
explicit `flush()` cancels any pending delayed flush and sends the queued
data immediately. -/
theorem output_buffer_flush_policy (ob : OutputBuffer) (data : Bytes) :
    (ob.closed = false → data.length ≤ 64 →
      OutputBuffer.write ob data
        = ({ ob with buffer := [], flush_task := none },
           [(ob.buffer ++ [data]).flatten])) ∧
    (ob.closed = false → 64 < data.length → ob.flush_task = none →
      OutputBuffer.write ob data
        = ({ ob with
              buffer := ob.buffer ++ [data],
              flush_task := some ob.flush_interval }, [])) ∧
    (ob.closed = false → 64 < data.length → ob.flush_task.isSome = true →
      OutputBuffer.write ob data
        = ({ ob with buffer := ob.buffer ++ [data] }, [])) ∧
    (ob.closed = false → ob.buffer ≠ [] →
      OutputBuffer.delayed_flush_fire ob
        = ({ ob with buffer := [], flush_task := none },
           [ob.buffer.flatten])) ∧
    ((OutputBuffer.flush ob).1.flush_task = none) ∧
    (ob.closed = false → ob.buffer ≠ [] →
      OutputBuffer.flush ob
        = ({ ob with buffer := [], flush_task := none },
           [ob.buffer.flatten])) ∧
    ((OutputBuffer.init DEFAULT_FLUSH_INTERVAL_MS).flush_interval
      = 8 / 1000) := by
  refine ⟨fun hc hlen => ?_, fun hc hlen ht => ?_, fun hc hlen ht => ?_,
    fun hc hb => ?_, ?_, fun hc hb => ?_, rfl⟩
  · simp [OutputBuffer.write, OutputBuffer.flush, hc, hlen]
  · simp [OutputBuffer.write, Nat.not_le_of_lt hlen, hc, ht]
  · simp [OutputBuffer.write, Nat.not_le_of_lt hlen, hc,
      Option.isNone_iff_eq_none, Option.isSome_iff_ne_none.mp ht]
  · simp [OutputBuffer.delayed_flush_fire, hc, hb]
  · by_cases hsend : !ob.buffer.isEmpty && !ob.closed
    · simp [OutputBuffer.flush, hsend]
    · simp [OutputBuffer.flush, hsend]
  · simp [OutputBuffer.flush, hc, hb]

/-- C5 witness: on an empty, open buffer a one-byte chunk is flushed at
once as its own frame. -/
theorem output_buffer_flush_policy_witness :
    OutputBuffer.write (OutputBuffer.init DEFAULT_FLUSH_INTERVAL_MS) [97]
      = ({ OutputBuffer.init DEFAULT_FLUSH_INTERVAL_MS with
            buffer := [], flush_task := none },
         [((OutputBuffer.init DEFAULT_FLUSH_INTERVAL_MS).buffer
            ++ [[97]]).flatten]) :=
  (output_buffer_flush_policy (OutputBuffer.init DEFAULT_FLUSH_INTERVAL_MS)
    [97]).1 rfl (by decide)

/-- C5 counterexample: with a 65-byte chunk already queued, writing a
one-byte chunk sends one COMBINED 66-byte frame, not the small chunk
uncoalesced. -/
theorem small_chunk_coalesced_counterexample :
    ((OutputBuffer.write (OutputBuffer.init DEFAULT_FLUSH_INTERVAL_MS)
        (List.replicate 65 120)).2 = []) ∧
    ((OutputBuffer.write
        (OutputBuffer.write (OutputBuffer.init DEFAULT_FLUSH_INTERVAL_MS)
          (List.replicate 65 120)).1 [97]).2
      = [List.replicate 65 120 ++ [97]]) ∧
    ((OutputBuffer.write
        (OutputBuffer.write (OutputBuffer.init DEFAULT_FLUSH_INTERVAL_MS)
          (List.replicate 65 120)).1 [97]).2 ≠ [[97]]) := by
  refine ⟨by decide, by decide, by decide⟩

/-- A live, connected session owned by "alice", bound to socket 7. -/
def sessAlice : TerminalSession :=
  { session_id := "sid1", user_id := "alice", pty_manager := ⟨true⟩,
    shell_id := "zsh", created_at := 0, last_activity := 0,
    output_buffer := [], output_buffer_size := 0, websocket := some 7,
    is_connected := true }

/-- A registry holding exactly `sessAlice`. -/
def regAlice : SessionRegistry :=
  ⟨[("sid1", sessAlice)], [("alice", ["sid1"])]⟩

/-- C6: an ownership mismatch produces exactly the observable outcome of an
unknown session id — `none`, an unchanged registry, and no socket closes —
so a caller cannot distinguish "exists under another owner" from "does not
exist". -/
theorem reconnect_ownership_mismatch_hidden (reg : SessionRegistry)
    (session_id user_id : String) (websocket now : Nat) :
    (∀ s, assocGet reg.sessions session_id = some s → s.user_id ≠ user_id →
      reconnect_session reg session_id user_id websocket now
        = (none, reg, [])) ∧
    (assocGet reg.sessions session_id = none →
      reconnect_session reg session_id user_id websocket now
        = (none, reg, [])) := by
  constructor
  · intro s hs hne
    simp [reconnect_session, hs, hne]
  · intro h
    simp [reconnect_session, h]

/-- C6 witness: "bob" reconnecting to alice's session gets the same triple
as reconnecting to a nonexistent id. -/
theorem reconnect_ownership_mismatch_hidden_witness :
    reconnect_session regAlice "sid1" "bob" 9 5 = (none, regAlice, []) ∧
    reconnect_session regAlice "nope" "bob" 9 5 = (none, regAlice, []) :=
  ⟨(reconnect_ownership_mismatch_hidden regAlice "sid1" "bob" 9 5).1
      sessAlice (by decide) (by decide),
   (reconnect_ownership_mismatch_hidden regAlice "nope" "bob" 9 5).2
      (by decide)⟩

/-- Unfolding `destroy_session` on a present id. -/
lemma destroy_session_removes (reg : SessionRegistry) (session_id : String)
    (s : TerminalSession) (hs : assocGet reg.sessions session_id = some s) :
    (destroy_session reg session_id).1.sessions
        = assocRemove reg.sessions session_id ∧
    (destroy_session reg session_id).1.user_sessions
        = (if (((assocGet reg.user_sessions s.user_id).getD []).filter
              (fun sid => sid != session_id)).isEmpty
           then assocRemove reg.user_sessions s.user_id
           else assocSet reg.user_sessions s.user_id
              (((assocGet reg.user_sessions s.user_id).getD []).filter
                (fun sid => sid != session_id))) := by
  constructor <;> simp [destroy_session, hs]

/-- C7: reconnecting to an owned session whose PTY has died returns the
not-found result and destroys the session: it is gone from the session map,
gone from the owner's user-index entry, and an emptied user entry is
pruned. -/
theorem reconnect_dead_pty_destroys (reg : SessionRegistry)
    (session_id user_id : String) (websocket now : Nat)
    (s : TerminalSession)
    (hs : assocGet reg.sessions session_id = some s)
    (huid : s.user_id = user_id) (hdead : s.pty_manager.alive = false) :
    (reconnect_session reg session_id user_id websocket now).1 = none ∧
    assocGet (reconnect_session reg session_id user_id websocket
        now).2.1.sessions session_id = none ∧
    (∀ ids, assocGet (reconnect_session reg session_id user_id websocket
        now).2.1.user_sessions user_id = some ids → session_id ∉ ids) ∧
    ((((assocGet reg.user_sessions user_id).getD []).filter
        (fun sid => sid != session_id)).isEmpty = true →
      assocGet (reconnect_session reg session_id user_id websocket
        now).2.1.user_sessions user_id = none) := by
  have hne : ¬ s.user_id ≠ user_id := by simp [huid]
  have hred : reconnect_session reg session_id user_id websocket now
      = (none, (destroy_session reg session_id).1,
         (destroy_session reg session_id).2) := by
    simp [reconnect_session, hs, hne, hdead]
  rw [hred]
  have hd := destroy_session_removes reg session_id s hs
  refine ⟨rfl, ?_, ?_, ?_⟩
  · rw [hd.1]
    exact assocGet_assocRemove_self _ _
  · intro ids hids
    rw [hd.2, huid] at hids
    by_cases hE : (((assocGet reg.user_sessions user_id).getD []).filter
        (fun sid => sid != session_id)).isEmpty
    · rw [if_pos hE, assocGet_assocRemove_self] at hids
      exact absurd hids (by simp)
    · rw [if_neg hE, assocGet_assocSet_self] at hids
      cases hids
      intro hmem
      have := (List.mem_filter.mp hmem).2
      simp at this
  · intro hE
    rw [hd.2, huid, if_pos hE]
    exact assocGet_assocRemove_self _ _

/-- C7 witness: a dead-PTY session owned by "alice" self-heals on her
reconnect attempt: not-found, removed from both mappings, user entry
pruned. -/
theorem reconnect_dead_pty_destroys_witness :
    (reconnect_session
        ⟨[("sid1", { sessAlice with pty_manager := ⟨false⟩ })],
         [("alice", ["sid1"])]⟩ "sid1" "alice" 9 5).1 = none ∧
    assocGet (reconnect_session
        ⟨[("sid1", { sessAlice with pty_manager := ⟨false⟩ })],
         [("alice", ["sid1"])]⟩ "sid1" "alice" 9 5).2.1.sessions "sid1"
      = none ∧
    assocGet (reconnect_session
        ⟨[("sid1", { sessAlice with pty_manager := ⟨false⟩ })],
         [("alice", ["sid1"])]⟩ "sid1" "alice" 9 5).2.1.user_sessions
        "alice" = none :=
  ⟨(reconnect_dead_pty_destroys
      ⟨[("sid1", { sessAlice with pty_manager := ⟨false⟩ })],
       [("alice", ["sid1"])]⟩ "sid1" "alice" 9 5
      { sessAlice with pty_manager := ⟨false⟩ }
      (by decide) (by decide) (by decide)).1,
   (reconnect_dead_pty_destroys
      ⟨[("sid1", { sessAlice with pty_manager := ⟨false⟩ })],
       [("alice", ["sid1"])]⟩ "sid1" "alice" 9 5
      { sessAlice with pty_manager := ⟨false⟩ }
      (by decide) (by decide) (by decide)).2.1,
   (reconnect_dead_pty_destroys
      ⟨[("sid1", { sessAlice with pty_manager := ⟨false⟩ })],
       [("alice", ["sid1"])]⟩ "sid1" "alice" 9 5
      { sessAlice with pty_manager := ⟨false⟩ }
      (by decide) (by decide) (by decide)).2.2.2 (by decide)⟩

/-- C9: a successful reconnect over a still-connected socket closes the old
socket with the distinct supersede code 4000, binds the new socket, marks
connected and refreshes the activity timestamp; a second reconnect then
closes the first replacement with code 4000 and leaves exactly the later
socket bound. -/
theorem reconnect_supersedes_old_socket (reg : SessionRegistry)
    (session_id user_id : String) (ws1 ws2 now now2 w : Nat)
    (s : TerminalSession)
    (hs : assocGet reg.sessions session_id = some s)
    (huid : s.user_id = user_id) (halive : s.pty_manager.alive = true)
    (hws : s.websocket = some w) (hconn : s.is_connected = true) :
    reconnect_session reg session_id user_id ws1 now
      = (some (rebind s ws1 now),
         ⟨assocSet reg.sessions session_id (rebind s ws1 now),
          reg.user_sessions⟩,
         [(w, some 4000)]) ∧
    (reconnect_session (reconnect_session reg session_id user_id ws1
        now).2.1 session_id user_id ws2 now2).2.2 = [(ws1, some 4000)] ∧
    (reconnect_session (reconnect_session reg session_id user_id ws1
        now).2.1 session_id user_id ws2 now2).1
      = some (rebind s ws2 now2) ∧
    assocGet (reconnect_session (reconnect_session reg session_id user_id
        ws1 now).2.1 session_id user_id ws2 now2).2.1.sessions session_id
      = some (rebind s ws2 now2) := by
  have hne : ¬ s.user_id ≠ user_id := by simp [huid]
  have h1 : reconnect_session reg session_id user_id ws1 now
      = (some (rebind s ws1 now),
         ⟨assocSet reg.sessions session_id (rebind s ws1 now),
          reg.user_sessions⟩,
         [(w, some 4000)]) := by
    simp [reconnect_session, rebind, hs, hne, halive, hws, hconn]
  have h2 : reconnect_session (reconnect_session reg session_id user_id ws1
      now).2.1 session_id user_id ws2 now2
      = (some (rebind s ws2 now2),
         ⟨assocSet (assocSet reg.sessions session_id (rebind s ws1 now))
            session_id (rebind s ws2 now2),
          reg.user_sessions⟩,
         [(ws1, some 4000)]) := by
    rw [h1]
    simp [reconnect_session, rebind, assocGet_assocSet_self, hne, halive]
  refine ⟨h1, by rw [h2], by rw [h2], ?_⟩
  rw [h2]
  exact assocGet_assocSet_self _ _ _

/-- C9 witness: both reconnects on the concrete one-session registry: the
old socket 7 is superseded by 9, then 9 by 11, leaving only 11 bound. -/
theorem reconnect_supersedes_old_socket_witness :
    reconnect_session regAlice "sid1" "alice" 9 5
      = (some (rebind sessAlice 9 5),
         ⟨assocSet regAlice.sessions "sid1" (rebind sessAlice 9 5),
          regAlice.user_sessions⟩,
         [(7, some 4000)]) ∧
    (reconnect_session (reconnect_session regAlice "sid1" "alice" 9
        5).2.1 "sid1" "alice" 11 6).2.2 = [(9, some 4000)] ∧
    (reconnect_session (reconnect_session regAlice "sid1" "alice" 9
        5).2.1 "sid1" "alice" 11 6).1 = some (rebind sessAlice 11 6) :=
  ⟨(reconnect_supersedes_old_socket regAlice "sid1" "alice" 9 11 5 6 7
      sessAlice (by decide) (by decide) (by decide) (by decide)
      (by decide)).1,
   (reconnect_supersedes_old_socket regAlice "sid1" "alice" 9 11 5 6 7
      sessAlice (by decide) (by decide) (by decide) (by decide)
      (by decide)).2.1,
   (reconnect_supersedes_old_socket regAlice "sid1" "alice" 9 11 5 6 7
      sessAlice (by decide) (by decide) (by decide) (by decide)
      (by decide)).2.2.1⟩

/-- Each single `read` conserves the queued bytes: what it returns plus
what stays queued is what was queued. -/
lemma read_conserves (pty : FakePTYBackend) (size : Nat) :
    (pty.read size).1 ++ (pty.read size).2.output_queue.flatten
      = pty.output_queue.flatten := by
  unfold FakePTYBackend.read
  by_cases ha : pty.alive
  · simp only [ha, Bool.not_true, Bool.false_eq_true, if_false]
    cases hq : pty.output_queue with
    | nil => simp [hq]
    | cons data rest =>
      by_cases hlt : size < data.length
      · simp only [hlt, if_true, hq, List.flatten_cons]
        rw [← List.append_assoc, List.take_append_drop]
      · simp [hlt, hq]
  · simp [ha]

/-- With a positive read size and enough reads, a live fake PTY is drained
to exactly the queued bytes in order. -/
lemma readAll_drains (size : Nat) (hsize : 1 ≤ size) :
    ∀ fuel (pty : FakePTYBackend), pty.alive = true →
      totalLen pty.output_queue + pty.output_queue.length ≤ fuel →
      pty.readAll size fuel = pty.output_queue.flatten := by
  intro fuel
  induction fuel with
  | zero =>
    intro pty _ hle
    have hq : pty.output_queue = [] := by
      cases h : pty.output_queue with
      | nil => rfl
      | cons a l => rw [h] at hle; simp at hle
    simp [FakePTYBackend.readAll, hq]
  | succ n ih =>
    intro pty halive hle
    unfold FakePTYBackend.readAll
    cases hq : pty.output_queue with
    | nil =>
      have hr : pty.read size = ([], pty) := by
        simp [FakePTYBackend.read, halive, hq]
      rw [hr]
      simp only [List.nil_append]
      rw [ih pty halive (by simp [hq, totalLen_nil])]
      simp [hq]
    | cons data rest =>
      by_cases hlt : size < data.length
      · have hr : pty.read size = (data.take size,
            { pty with output_queue := data.drop size :: rest }) := by
          simp [FakePTYBackend.read, halive, hq, hlt]
        have hm : totalLen (data.drop size :: rest)
            + (data.drop size :: rest).length ≤ n := by
          rw [hq] at hle
          simp only [totalLen_cons, List.length_cons,
            List.length_drop] at hle ⊢
          omega
        rw [hr]
        simp only
        rw [ih _ (by simp [halive]) hm]
        show List.take size data ++ (List.drop size data :: rest).flatten
          = (data :: rest).flatten
        simp only [List.flatten_cons]
        rw [← List.append_assoc, List.take_append_drop]
      · have hr : pty.read size
            = (data, { pty with output_queue := rest }) := by
          simp [FakePTYBackend.read, halive, hq, hlt]
        have hm : totalLen rest + rest.length ≤ n := by
          rw [hq] at hle
          simp only [totalLen_cons, List.length_cons] at hle
          omega
        rw [hr]
        simp only
        rw [ih _ (by simp [halive]) hm]
        simp [hq]

/-- Injections queue at the back, in order. -/
lemma inject_output_foldl (cs : List Bytes) :
    ∀ pty : FakePTYBackend,
      (cs.foldl FakePTYBackend.inject_output pty).output_queue
        = pty.output_queue ++ cs := by
  induction cs with
  | nil => intro pty; simp
  | cons c rest ih =>
    intro pty
    simp [List.foldl_cons, ih, FakePTYBackend.inject_output]

/-- C10: the fake PTY's `read(size)` returns at most `size` bytes, returns
empty leaving the state unchanged when the backend is dead or the queue is
empty, puts the remainder of an oversized chunk back at the front, never
loses queued bytes, and — by successive reads with positive size on a live
backend — yields exactly the injected outputs concatenated in injection
order (injections enqueue at the back, in order). -/
theorem fake_pty_read_preserves_data (pty : FakePTYBackend)
    (size fuel : Nat) (cs : List Bytes) :
    (pty.read size).1.length ≤ size ∧
    (pty.alive = false → pty.read size = ([], pty)) ∧
    (pty.output_queue = [] → pty.read size = ([], pty)) ∧
    (∀ data rest, pty.alive = true → pty.output_queue = data :: rest →
      size < data.length →
      pty.read size = (data.take size,
        { pty with output_queue := data.drop size :: rest })) ∧
    ((pty.read size).1 ++ (pty.read size).2.output_queue.flatten
      = pty.output_queue.flatten) ∧
    ((cs.foldl FakePTYBackend.inject_output pty).output_queue
      = pty.output_queue ++ cs) ∧
    (pty.alive = true → 1 ≤ size →
      totalLen pty.output_queue + pty.output_queue.length ≤ fuel →
      pty.readAll size fuel = pty.output_queue.flatten) := by
  refine ⟨?_, fun hdead => by simp [FakePTYBackend.read, hdead],
    fun hq => by simp [FakePTYBackend.read, hq],
    fun data rest halive hq hlt => by
      simp [FakePTYBackend.read, halive, hq, hlt],
    read_conserves pty size, inject_output_foldl cs pty,
    fun halive hsize hle => readAll_drains size hsize fuel pty halive hle⟩
  unfold FakePTYBackend.read
  by_cases ha : pty.alive
  · simp only [ha, Bool.not_true, Bool.false_eq_true, if_false]
    cases hq : pty.output_queue with
    | nil => simp
    | cons data rest =>
      by_cases hlt : size < data.length
      · simp [hlt]
      · simpa [hlt] using Nat.le_of_not_lt hlt
  · simp [ha]

/-- C10 witness: injecting `[1,2,3]` then `[4,5]` into a live fake PTY and
reading with `size = 2` drains exactly `[1,2,3,4,5]`. -/
theorem fake_pty_read_preserves_data_witness :
    FakePTYBackend.readAll
        ([[1, 2, 3], [4, 5]].foldl FakePTYBackend.inject_output
          { FakePTYBackend.init with alive := true }) 2 10
      = [1, 2, 3, 4, 5] := by
  have h := (fake_pty_read_preserves_data
      ([[1, 2, 3], [4, 5]].foldl FakePTYBackend.inject_output
        { FakePTYBackend.init with alive := true }) 2 10 []).2.2.2.2.2.2
      (by decide) (by decide) (by decide)
  rw [h]
  decide

end Porterminal
